import Mathlib

/-!
Verification of the overlay-persistence subsystem of `kline-pro`.

The development shallowly embeds the persistence store module
(`serializeOverlay`, `deserializeOverlay`, `getStorageKey`,
`saveOverlaysToLocalStorage`, `loadOverlaysFromLocalStorage`,
`clearOverlaysFromLocalStorage`, class `OverlayStorage`) and the
overlay-lifecycle part of `ChartProComponent`
(`saveOverlays`, `trackOverlay`, `untrackOverlay`, `clearOverlays`,
`loadOverlays`, and the symbol-change effect).

Modelling conventions:
* JavaScript numbers that are only carried through (point coordinates,
  the opaque `extendData` / `styles` payloads) are modelled as `Int`;
  no arithmetic is performed on them anywhere in the embedded code.
* `localStorage` is a mutable string-keyed store whose primitive
  operations may throw (quota exceeded, storage unavailable); each
  primitive is given a failure switch in the modelled world state.
* A stored text cell is represented by the JSON value it parses to
  when it is well-formed JSON (the platform guarantees
  `JSON.parse (JSON.stringify v) = v`), and by a `corrupt` constructor
  when `JSON.parse` would reject it.
* `console.error` is modelled as appending a line to a log.
-/

/-- JSON values, the results of `JSON.parse`. -/
inductive Json where
  | null
  | bool (b : Bool)
  | num (n : Int)
  | str (s : String)
  | arr (elems : List Json)
  | obj (fields : List (String × Json))

/-- An anchor point of an overlay.  The engine populates any subset of
`timestamp`, `dataIndex`, `value`; it may additionally attach transient
engine-internal fields, modelled here as an association list `extra`. -/
structure OverlayPoint where
  timestamp : Option Int
  dataIndex : Option Int
  value : Option Int
  extra : List (String × Int)
deriving DecidableEq

/-- A live overlay instance owned by the engine
(the `Overlay` type imported from `klinecharts`).  Besides the persisted
fields it carries engine-internal state, represented here by `zLevel`. -/
structure Overlay where
  id : String
  groupId : String
  name : String
  points : List OverlayPoint
  lock : Bool
  visible : Bool
  mode : String
  extendData : Option Int
  styles : Option Int
  zLevel : Int
deriving DecidableEq

/-- Interface `SerializedOverlay` of the store module. -/
structure SerializedOverlay where
  id : String
  groupId : String
  name : String
  points : List OverlayPoint
  lock : Bool
  visible : Bool
  mode : String
  extendData : Option Int
  styles : Option Int
deriving DecidableEq

/-- A creation request handed to the engine
(the `OverlayCreate` type imported from `klinecharts`). -/
structure OverlayCreate where
  id : String
  groupId : String
  name : String
  points : List OverlayPoint
  lock : Bool
  visible : Bool
  mode : String
  extendData : Option Int
  styles : Option Int
deriving DecidableEq

def STORAGE_PREFIX : String := "klinecharts-pro-overlays"

/-- Source `getStorageKey`: formats the storage key from the fixed
prefix constant and the symbol ticker. -/
def getStorageKey (symbol : String) : String :=
  STORAGE_PREFIX ++ "-" ++ symbol

/-- Source `serializeOverlay`: copies the persisted scalar fields and
maps each point through the spread `{ ...p }`, which rebuilds the point
with all of its own enumerable fields (the source comment reads
"Use spread operator to preserve all point properties"). -/
def serializeOverlay (overlay : Overlay) : SerializedOverlay :=
  { id := overlay.id
    groupId := overlay.groupId
    name := overlay.name
    points := overlay.points.map (fun p =>
      { timestamp := p.timestamp
        dataIndex := p.dataIndex
        value := p.value
        extra := p.extra })
    lock := overlay.lock
    visible := overlay.visible
    mode := overlay.mode
    extendData := overlay.extendData
    styles := overlay.styles }

/-- Source `deserializeOverlay`: rebuilds an `OverlayCreate` from a
serialized record; `points` is passed through unchanged and `mode` is
cast without validation. -/
def deserializeOverlay (data : SerializedOverlay) : OverlayCreate :=
  { id := data.id
    groupId := data.groupId
    name := data.name
    points := data.points
    lock := data.lock
    visible := data.visible
    mode := data.mode
    extendData := data.extendData
    styles := data.styles }

/-- JSON image of an optional numeric field under `JSON.stringify`:
a field whose value is `undefined` is omitted from the output. -/
def optNumField (name : String) : Option Int → List (String × Json)
  | some n => [(name, Json.num n)]
  | none => []

/-- JSON image of a point object under `JSON.stringify`. -/
def pointToJson (p : OverlayPoint) : Json :=
  Json.obj (optNumField "timestamp" p.timestamp ++
    optNumField "dataIndex" p.dataIndex ++
    optNumField "value" p.value ++
    p.extra.map (fun kv => (kv.1, Json.num kv.2)))

/-- JSON image of a `SerializedOverlay` object under `JSON.stringify`. -/
def overlayToJson (o : SerializedOverlay) : Json :=
  Json.obj ([("id", Json.str o.id),
    ("groupId", Json.str o.groupId),
    ("name", Json.str o.name),
    ("points", Json.arr (o.points.map pointToJson)),
    ("lock", Json.bool o.lock),
    ("visible", Json.bool o.visible),
    ("mode", Json.str o.mode)] ++
    optNumField "extendData" o.extendData ++
    optNumField "styles" o.styles)

/-- JSON image of a `SerializedOverlay[]` array under `JSON.stringify`. -/
def overlaysToJson (l : List SerializedOverlay) : Json :=
  Json.arr (l.map overlayToJson)

/-- The text content of a `localStorage` cell: either well-formed JSON
text, represented by the value it parses to, or text `JSON.parse`
rejects. -/
inductive StoredText where
  | wellFormed (v : Json)
  | corrupt (s : String)

/-- Models `JSON.parse` on a stored cell: a well-formed cell yields its value,
a corrupt cell throws (here: `none`). -/
def jsonParseStored : StoredText → Option Json
  | StoredText.wellFormed v => some v
  | StoredText.corrupt _ => none

/-- First-match lookup in a string-keyed association list. -/
def lookupA {α : Type} : List (String × α) → String → Option α
  | [], _ => none
  | p :: ps, k => if p.1 = k then some p.2 else lookupA ps k

/-- Remove every entry with the given key. -/
def eraseA {α : Type} : List (String × α) → String → List (String × α)
  | [], _ => []
  | p :: ps, k => if p.1 = k then eraseA ps k else p :: eraseA ps k

/-- Overwrite-or-insert for a string-keyed association list. -/
def setA {α : Type} (l : List (String × α)) (k : String) (v : α) :
    List (String × α) :=
  (k, v) :: eraseA l k

/-- The world visible to the store module: the `localStorage` contents,
one failure switch per `localStorage` primitive (quota exhaustion,
storage unavailability), and the `console.error` log. -/
structure World where
  store : List (String × StoredText)
  setFails : Bool
  getFails : Bool
  removeFails : Bool
  log : List String

/-- Models `localStorage.getItem`: throws when the storage is unavailable,
otherwise returns the cell (or `none` when the key is absent). -/
def lsGetItem (w : World) (key : String) : Except Unit (Option StoredText) :=
  if w.getFails then Except.error () else Except.ok (lookupA w.store key)

/-- Models `localStorage.setItem`: throws on quota exhaustion / unavailability,
otherwise overwrites the cell. -/
def lsSetItem (w : World) (key : String) (v : StoredText) :
    Except Unit World :=
  if w.setFails then Except.error ()
  else Except.ok { w with store := setA w.store key v }

/-- Models `localStorage.removeItem`: throws when unavailable, otherwise
removes the cell. -/
def lsRemoveItem (w : World) (key : String) : Except Unit World :=
  if w.removeFails then Except.error ()
  else Except.ok { w with store := eraseA w.store key }

/-- Append a `console.error` line. -/
def logError (w : World) (msg : String) : World :=
  { w with log := w.log ++ [msg] }

def saveErrMsg : String := "Failed to save overlays to localStorage:"
def loadErrMsg : String := "Failed to load overlays from localStorage:"
def clearErrMsg : String := "Failed to clear overlays from localStorage:"

/-- Source `saveOverlaysToLocalStorage`: writes
`JSON.stringify(overlays)` under `getStorageKey(symbol)`; any error is
caught and logged. -/
def saveOverlaysToLocalStorage (symbol : String)
    (overlays : List SerializedOverlay) (w : World) : World :=
  match lsSetItem w (getStorageKey symbol)
    (StoredText.wellFormed (overlaysToJson overlays)) with
  | Except.ok w' => w'
  | Except.error _ => logError w saveErrMsg

/-- Source `loadOverlaysFromLocalStorage`: reads the cell under
`getStorageKey(symbol)` and returns `JSON.parse(data)` when the cell is
present and parses; on an absent key it returns `[]`, and any thrown
error (storage read, parse) is caught and logged with `[]` returned.
The declared TypeScript return type is `SerializedOverlay[]`, but the
parse result is returned without shape validation, so the honest result
type is a JSON value. -/
def loadOverlaysFromLocalStorage (symbol : String) (w : World) :
    Json × World :=
  match lsGetItem w (getStorageKey symbol) with
  | Except.error _ => (Json.arr [], logError w loadErrMsg)
  | Except.ok none => (Json.arr [], w)
  | Except.ok (some cell) =>
    match jsonParseStored cell with
    | some j => (j, w)
    | none => (Json.arr [], logError w loadErrMsg)

/-- Source `clearOverlaysFromLocalStorage`: removes the cell under
`getStorageKey(symbol)`; any error is caught and logged. -/
def clearOverlaysFromLocalStorage (symbol : String) (w : World) : World :=
  match lsRemoveItem w (getStorageKey symbol) with
  | Except.ok w' => w'
  | Except.error _ => logError w clearErrMsg

/-- The cloud sync capability (`upload` is not exercised by the claims
below; `download` is modelled as the records a successful download
resolves with). -/
structure CloudSyncProvider where
  download : String → List SerializedOverlay

/-- State of class `OverlayStorage`: the current symbol and the
optionally bound cloud provider. -/
structure OverlayStorage where
  symbol : String
  cloudSyncProvider : Option CloudSyncProvider

def OverlayStorage.setSymbol (os : OverlayStorage) (symbol : String) :
    OverlayStorage :=
  { os with symbol := symbol }

def OverlayStorage.save (os : OverlayStorage)
    (overlays : List SerializedOverlay) (w : World) : World :=
  saveOverlaysToLocalStorage os.symbol overlays w

def OverlayStorage.load (os : OverlayStorage) (w : World) : Json × World :=
  loadOverlaysFromLocalStorage os.symbol w

def OverlayStorage.clear (os : OverlayStorage) (w : World) : World :=
  clearOverlaysFromLocalStorage os.symbol w

/-- Source `syncFromCloud`: with a bound provider, downloads for the current
symbol, saves the result locally and returns it; otherwise returns `[]`
without touching the world. -/
def OverlayStorage.syncFromCloud (os : OverlayStorage) (w : World) :
    List SerializedOverlay × World :=
  match os.cloudSyncProvider with
  | some p =>
    let overlays := p.download os.symbol
    (overlays, os.save overlays w)
  | none => ([], w)

/-- Partial inverse of `pointToJson`, reading the three coordinate
fields and treating every other numeric field as a transient extra.
This realises the unchecked `SerializedOverlay[]` cast the component
applies to the parse result. -/
def pointFromJson : Json → Option OverlayPoint
  | Json.obj fields =>
    let num := fun (j : Json) => match j with
      | Json.num n => some n
      | _ => none
    some
      { timestamp := (lookupA fields "timestamp").bind num
        dataIndex := (lookupA fields "dataIndex").bind num
        value := (lookupA fields "value").bind num
        extra := (fields.filter (fun kv =>
            kv.1 != "timestamp" && kv.1 != "dataIndex" && kv.1 != "value")).filterMap
          (fun kv => (num kv.2).map (fun n => (kv.1, n))) }
  | _ => none

/-- Partial inverse of `overlayToJson` (see `pointFromJson`). -/
def overlayFromJson : Json → Option SerializedOverlay
  | Json.obj fields =>
    let str := fun (j : Json) => match j with
      | Json.str s => some s
      | _ => none
    let bool := fun (j : Json) => match j with
      | Json.bool b => some b
      | _ => none
    let num := fun (j : Json) => match j with
      | Json.num n => some n
      | _ => none
    match (lookupA fields "id").bind str,
      (lookupA fields "groupId").bind str,
      (lookupA fields "name").bind str,
      lookupA fields "points",
      (lookupA fields "lock").bind bool,
      (lookupA fields "visible").bind bool,
      (lookupA fields "mode").bind str with
    | some id, some groupId, some name, some (Json.arr pts),
      some lock, some visible, some mode =>
      some
        { id := id
          groupId := groupId
          name := name
          points := pts.filterMap pointFromJson
          lock := lock
          visible := visible
          mode := mode
          extendData := (lookupA fields "extendData").bind num
          styles := (lookupA fields "styles").bind num }
    | _, _, _, _, _, _, _ => none
  | _ => none

/-- The record list the component reads out of a loaded JSON value
(the implicit `as SerializedOverlay[]` cast, made total). -/
def recordsFromJson : Json → List SerializedOverlay
  | Json.arr elems => elems.filterMap overlayFromJson
  | _ => []

/-- State of the overlay-lifecycle part of `ChartProComponent`:
the engine's overlays (`widget`, keyed by overlay id), the tracked map
`overlayMap`, the `overlayStorage` symbol binding, the persistence
switch, and the world. -/
structure CoordState where
  engine : List (String × Overlay)
  overlayMap : List (String × Overlay)
  storageSymbol : String
  enabled : Bool
  world : World

/-- Models `widget.getOverlayById`. -/
def getOverlayById (s : CoordState) (id : String) : Option Overlay :=
  lookupA s.engine id

/-- Refresh one tracked entry from the engine: an entry whose overlay is
still present is replaced by the live object, any other entry is kept
unchanged. -/
def refreshEntry (engine : List (String × Overlay))
    (p : String × Overlay) : String × Overlay :=
  match lookupA engine p.1 with
  | some o => (p.1, o)
  | none => p

/-- Source `saveOverlays`: refreshes each tracked entry from the widget, then
persists the serialized tracked set under the storage's current
symbol. -/
def saveOverlays (s : CoordState) : CoordState :=
  if s.enabled then
    let m := s.overlayMap.map (refreshEntry s.engine)
    { s with
      overlayMap := m
      world := saveOverlaysToLocalStorage s.storageSymbol
        (m.map (fun p => serializeOverlay p.2)) s.world }
  else s

/-- Source `trackOverlay`: adds the live overlay with that id (when the
engine has one) to the tracked map. -/
def trackOverlay (id : String) (s : CoordState) : CoordState :=
  if s.enabled then
    match getOverlayById s id with
    | some o => { s with overlayMap := setA s.overlayMap id o }
    | none => s
  else s

/-- Source `untrackOverlay`: deletes the id from the tracked map and saves
immediately. -/
def untrackOverlay (id : String) (s : CoordState) : CoordState :=
  if s.enabled then
    saveOverlays { s with overlayMap := eraseA s.overlayMap id }
  else s

/-- Source `clearOverlays`: empties the tracked map and saves. -/
def clearOverlays (s : CoordState) : CoordState :=
  if s.enabled then saveOverlays { s with overlayMap := [] }
  else s

/-- Models `widget.createOverlay` on a creation request carrying an id: the
engine adopts the request's id when it is free and returns it, and
returns `null` when an overlay with that id already exists. -/
def createOverlay (c : OverlayCreate) (engine : List (String × Overlay)) :
    Option String × List (String × Overlay) :=
  match lookupA engine c.id with
  | some _ => (none, engine)
  | none =>
    (some c.id, engine ++ [(c.id,
      { id := c.id
        groupId := c.groupId
        name := c.name
        points := c.points
        lock := c.lock
        visible := c.visible
        mode := c.mode
        extendData := c.extendData
        styles := c.styles
        zLevel := 0 })])

/-- Source `loadOverlays`: loads the records persisted under the storage's
current symbol, asks the engine to create one overlay per record, and
tracks the live overlay behind every id the engine returns. -/
def loadOverlays (s : CoordState) : CoordState :=
  if s.enabled then
    let r := loadOverlaysFromLocalStorage s.storageSymbol s.world
    (recordsFromJson r.1).foldl
      (fun st rec =>
        let c := deserializeOverlay rec
        match createOverlay c st.engine with
        | (some id, e') =>
          let st' := { st with engine := e' }
          match lookupA e' id with
          | some o => { st' with overlayMap := setA st'.overlayMap id o }
          | none => st'
        | (none, e') => { st with engine := e' })
      { s with world := r.2 }
  else s

/-- The overlay-persistence portion of the symbol-change effect, run
when a previous symbol exists: when persistence is on and the ticker
changed, `widget.removeOverlay()` removes every overlay from the engine
and `clearOverlays()` runs; then the storage is rebound to the new
ticker; then (inside the asynchronous data fetch) `loadOverlays()` runs
for the new symbol when the ticker changed. -/
def onSymbolChangeOverlays (prevTicker newTicker : String)
    (s : CoordState) : CoordState :=
  let s1 :=
    if s.enabled ∧ prevTicker ≠ newTicker then
      clearOverlays { s with engine := [] }
    else s
  let s2 :=
    if s1.enabled then { s1 with storageSymbol := newTicker } else s1
  if s2.enabled ∧ prevTicker ≠ newTicker then loadOverlays s2 else s2

/-- Well-formedness of the engine map: the overlay stored under a key
carries that key as its id. -/
def engineWf (s : CoordState) : Prop :=
  ∀ p ∈ s.engine, (p.2).id = p.1

/-- Well-formedness of the tracked map: every tracked snapshot carries
its key as its id (`trackOverlay` and `loadOverlays` only ever insert
`getOverlayById id` under `id`). -/
def mapWf (s : CoordState) : Prop :=
  ∀ p ∈ s.overlayMap, (p.2).id = p.1

instance (s : CoordState) : Decidable (engineWf s) := by
  unfold engineWf; infer_instance

instance (s : CoordState) : Decidable (mapWf s) := by
  unfold mapWf; infer_instance

/-! ### Association-list and storage lemmas -/

theorem lookupA_setA_self {α : Type} (l : List (String × α)) (k : String)
    (v : α) : lookupA (setA l k v) k = some v := by
  simp [setA, lookupA]

theorem lookupA_eraseA_ne {α : Type} (l : List (String × α))
    (k k' : String) (h : k' ≠ k) :
    lookupA (eraseA l k) k' = lookupA l k' := by
  induction l with
  | nil => rfl
  | cons p ps ih =>
    by_cases hp : p.1 = k
    · have hp' : ¬ p.1 = k' := by
        rw [hp]
        exact fun hc => h hc.symm
      simp only [eraseA, lookupA, if_pos hp, if_neg hp', ih]
    · simp only [eraseA, lookupA, if_neg hp, ih]

theorem lookupA_setA_ne {α : Type} (l : List (String × α))
    (k k' : String) (v : α) (h : k' ≠ k) :
    lookupA (setA l k v) k' = lookupA l k' := by
  have hk : ¬ k = k' := fun hc => h hc.symm
  simp only [setA, lookupA, if_neg hk, lookupA_eraseA_ne l k k' h]

theorem lookupA_mem {α : Type} {l : List (String × α)} {k : String}
    {v : α} (h : lookupA l k = some v) : (k, v) ∈ l := by
  induction l with
  | nil => simp [lookupA] at h
  | cons p ps ih =>
    cases p with
    | mk a b =>
      by_cases hp : a = k
      · subst hp
        simp [lookupA] at h
        subst h
        exact List.mem_cons_self _ _
      · simp [lookupA, hp] at h
        exact List.mem_cons_of_mem _ (ih h)

theorem mem_eraseA {α : Type} {l : List (String × α)} {k : String}
    {p : String × α} (h : p ∈ eraseA l k) : p ∈ l ∧ p.1 ≠ k := by
  induction l with
  | nil => simp [eraseA] at h
  | cons q qs ih =>
    by_cases hq : q.1 = k
    · simp [eraseA, hq] at h
      rcases ih h with ⟨h1, h2⟩
      exact ⟨List.mem_cons_of_mem _ h1, h2⟩
    · simp [eraseA, hq] at h
      cases h with
      | inl he => subst he; exact ⟨List.mem_cons_self _ _, hq⟩
      | inr hm =>
        rcases ih hm with ⟨h1, h2⟩
        exact ⟨List.mem_cons_of_mem _ h1, h2⟩

theorem getStorageKey_eq (symbol : String) :
    getStorageKey symbol = "klinecharts-pro-overlays-" ++ symbol := by
  have h : ( STORAGE_PREFIX ++ "-" : String) = "klinecharts-pro-overlays-" := rfl
  show STORAGE_PREFIX ++ "-" ++ symbol = "klinecharts-pro-overlays-" ++ symbol
  rw [h]

theorem getStorageKey_inj {s1 s2 : String}
    (h : getStorageKey s1 = getStorageKey s2) : s1 = s2 := by
  rw [getStorageKey_eq, getStorageKey_eq] at h
  have h2 := congrArg String.data h
  simp [String.data_append] at h2
  exact String.ext h2

theorem save_ok (symbol : String) (overlays : List SerializedOverlay)
    (w : World) (h : w.setFails = false) :
    saveOverlaysToLocalStorage symbol overlays w =
      { w with store := setA w.store (getStorageKey symbol) (StoredText.wellFormed (overlaysToJson overlays)) } := by
  simp [saveOverlaysToLocalStorage, lsSetItem, h]

theorem save_fail (symbol : String) (overlays : List SerializedOverlay)
    (w : World) (h : w.setFails = true) :
    saveOverlaysToLocalStorage symbol overlays w = logError w saveErrMsg := by
  simp [saveOverlaysToLocalStorage, lsSetItem, h]

theorem load_found (symbol : String) (w : World) (j : Json)
    (hg : w.getFails = false)
    (hl : lookupA w.store (getStorageKey symbol) =
      some (StoredText.wellFormed j)) :
    loadOverlaysFromLocalStorage symbol w = (j, w) := by
  simp [loadOverlaysFromLocalStorage, lsGetItem, hg, hl, jsonParseStored]

theorem load_absent (symbol : String) (w : World)
    (hg : w.getFails = false)
    (hl : lookupA w.store (getStorageKey symbol) = none) :
    loadOverlaysFromLocalStorage symbol w = (Json.arr [], w) := by
  simp [loadOverlaysFromLocalStorage, lsGetItem, hg, hl]

theorem load_corrupt (symbol : String) (w : World) (t : String)
    (hg : w.getFails = false)
    (hl : lookupA w.store (getStorageKey symbol) =
      some (StoredText.corrupt t)) :
    loadOverlaysFromLocalStorage symbol w =
      (Json.arr [], logError w loadErrMsg) := by
  simp [loadOverlaysFromLocalStorage, lsGetItem, hg, hl, jsonParseStored]

theorem load_getfail (symbol : String) (w : World)
    (hg : w.getFails = true) :
    loadOverlaysFromLocalStorage symbol w =
      (Json.arr [], logError w loadErrMsg) := by
  simp [loadOverlaysFromLocalStorage, lsGetItem, hg]

theorem clear_ok (symbol : String) (w : World)
    (h : w.removeFails = false) :
    clearOverlaysFromLocalStorage symbol w =
      { w with store := eraseA w.store (getStorageKey symbol) } := by
  simp [clearOverlaysFromLocalStorage, lsRemoveItem, h]

theorem clear_fail (symbol : String) (w : World)
    (h : w.removeFails = true) :
    clearOverlaysFromLocalStorage symbol w = logError w clearErrMsg := by
  simp [clearOverlaysFromLocalStorage, lsRemoveItem, h]

/-! ### Coordinator lemmas -/

theorem refreshEntry_fst (e : List (String × Overlay))
    (p : String × Overlay) : (refreshEntry e p).1 = p.1 := by
  cases h : lookupA e p.1 <;> simp [refreshEntry, h]

theorem keys_refresh (e m : List (String × Overlay)) :
    (m.map (refreshEntry e)).map Prod.fst = m.map Prod.fst := by
  induction m with
  | nil => rfl
  | cons p ps ih => simp [refreshEntry_fst, ih]

theorem refresh_wf (e m : List (String × Overlay))
    (hE : ∀ p ∈ e, (p.2).id = p.1) (hm : ∀ p ∈ m, (p.2).id = p.1) :
    ∀ p ∈ m.map (refreshEntry e), (p.2).id = p.1 := by
  intro p hp
  rcases List.mem_map.1 hp with ⟨q, hq, rfl⟩
  cases h : lookupA e q.1 with
  | none => simp only [refreshEntry, h]; exact hm q hq
  | some o =>
    simp only [refreshEntry, h]
    exact hE (q.1, o) (lookupA_mem h)

theorem mem_keys_eraseA {α : Type} {l : List (String × α)} {i k : String}
    (h : k ∈ (eraseA l i).map Prod.fst) :
    k ≠ i ∧ k ∈ l.map Prod.fst := by
  rcases List.mem_map.1 h with ⟨p, hp, rfl⟩
  rcases mem_eraseA hp with ⟨h1, h2⟩
  exact ⟨h2, List.mem_map.2 ⟨p, h1, rfl⟩⟩

theorem saveOverlays_eq (s : CoordState) (he : s.enabled = true)
    (hw : s.world.setFails = false) :
    saveOverlays s =
      { s with
        overlayMap := s.overlayMap.map (refreshEntry s.engine)
        world := { s.world with store := setA s.world.store (getStorageKey s.storageSymbol) (StoredText.wellFormed (overlaysToJson ((s.overlayMap.map (refreshEntry s.engine)).map (fun p => serializeOverlay p.2)))) } } := by
  simp only [saveOverlays, he, if_true]
  rw [save_ok _ _ _ hw]

/-- The removal handler's loop:
`overlaysToRemove.forEach(id => untrackOverlay(id))`. -/
def untrackOverlays (ids : List String) (s : CoordState) : CoordState :=
  ids.foldl (fun st i => untrackOverlay i st) s

theorem untrackOverlays_spec : ∀ (ids : List String) (s : CoordState),
    s.enabled = true → s.world.setFails = false → mapWf s → engineWf s →
    (untrackOverlays ids s).enabled = true ∧
    (untrackOverlays ids s).world.setFails = false ∧
    (untrackOverlays ids s).engine = s.engine ∧
    (untrackOverlays ids s).storageSymbol = s.storageSymbol ∧
    mapWf (untrackOverlays ids s) ∧
    (∀ p ∈ (untrackOverlays ids s).overlayMap,
      p.1 ∉ ids ∧ p.1 ∈ s.overlayMap.map Prod.fst) ∧
    (ids ≠ [] →
      lookupA (untrackOverlays ids s).world.store (getStorageKey s.storageSymbol) =
        some (StoredText.wellFormed (overlaysToJson ((untrackOverlays ids s).overlayMap.map (fun p => serializeOverlay p.2))))) := by
  intro ids
  induction ids with
  | nil =>
    intro s he hw hM hE
    refine ⟨he, hw, rfl, rfl, hM, ?_, ?_⟩
    · intro p hp
      exact ⟨by simp, List.mem_map.2 ⟨p, hp, rfl⟩⟩
    · intro h
      exact absurd rfl h
  | cons i rest ih =>
    intro s he hw hM hE
    have hstep : untrackOverlays (i :: rest) s =
        untrackOverlays rest (untrackOverlay i s) := rfl
    have hsave : untrackOverlay i s =
        saveOverlays { s with overlayMap := eraseA s.overlayMap i } := by
      simp [untrackOverlay, he]
    have hexp : untrackOverlay i s =
        { s with
          overlayMap := (eraseA s.overlayMap i).map (refreshEntry s.engine)
          world := { s.world with store := setA s.world.store (getStorageKey s.storageSymbol) (StoredText.wellFormed (overlaysToJson (((eraseA s.overlayMap i).map (refreshEntry s.engine)).map (fun p => serializeOverlay p.2)))) } } := by
      rw [hsave,
        saveOverlays_eq { s with overlayMap := eraseA s.overlayMap i } he hw]
    have he' : (untrackOverlay i s).enabled = true := by rw [hexp]; exact he
    have hw' : (untrackOverlay i s).world.setFails = false := by
      rw [hexp]; exact hw
    have hM' : mapWf (untrackOverlay i s) := by
      rw [hexp]
      intro p hp
      refine refresh_wf s.engine (eraseA s.overlayMap i) hE ?_ p hp
      intro q hq
      exact hM q (mem_eraseA hq).1
    have hE' : engineWf (untrackOverlay i s) := by
      rw [hexp]
      exact hE
    obtain ⟨e1, e2, e3, e4, e5, e6, e7⟩ :=
      ih (untrackOverlay i s) he' hw' hM' hE'
    have hengine : (untrackOverlay i s).engine = s.engine := by rw [hexp]
    have hsym : (untrackOverlay i s).storageSymbol = s.storageSymbol := by
      rw [hexp]
    refine ⟨e1, e2, ?_, ?_, e5, ?_, ?_⟩
    · rw [hstep, e3, hengine]
    · rw [hstep, e4, hsym]
    · intro p hp
      rw [hstep] at hp
      obtain ⟨hrest, hin⟩ := e6 p hp
      have hin' : p.1 ∈ ((eraseA s.overlayMap i).map (refreshEntry s.engine)).map Prod.fst := by
        rw [hexp] at hin
        exact hin
      rw [keys_refresh] at hin'
      obtain ⟨hne, hmem⟩ := mem_keys_eraseA hin'
      constructor
      · intro hc
        rcases List.mem_cons.1 hc with hc1 | hc2
        · exact hne hc1
        · exact hrest hc2
      · exact hmem
    · intro _
      cases rest with
      | nil =>
        have hform : untrackOverlays (i :: ([] : List String)) s =
            untrackOverlay i s := rfl
        rw [hform, hexp]
        simp only [lookupA_setA_self]
      | cons r rs =>
        have h7 := e7 (by simp)
        rw [hsym] at h7
        rw [hstep]
        exact h7

theorem lookupA_eraseA_self {α : Type} (l : List (String × α))
    (k : String) : lookupA (eraseA l k) k = none := by
  induction l with
  | nil => rfl
  | cons p ps ih =>
    by_cases hp : p.1 = k
    · simp [eraseA, hp, ih]
    · simp [eraseA, lookupA, hp, ih]

/-! ### Claim C1 -/

/-- C1: for every overlay, `deserializeOverlay (serializeOverlay O)`
yields a creation request equal to `O` on all persisted fields —
`id`, `groupId`, `name`, `lock`, `visible`, `mode`, `extendData`,
`styles` — and, point by point, on the `timestamp`, `dataIndex` and
`value` coordinates. -/
theorem c1_serialize_deserialize_roundtrip (O : Overlay) :
    (deserializeOverlay (serializeOverlay O)).id = O.id ∧
    (deserializeOverlay (serializeOverlay O)).groupId = O.groupId ∧
    (deserializeOverlay (serializeOverlay O)).name = O.name ∧
    (deserializeOverlay (serializeOverlay O)).lock = O.lock ∧
    (deserializeOverlay (serializeOverlay O)).visible = O.visible ∧
    (deserializeOverlay (serializeOverlay O)).mode = O.mode ∧
    (deserializeOverlay (serializeOverlay O)).extendData = O.extendData ∧
    (deserializeOverlay (serializeOverlay O)).styles = O.styles ∧
    (deserializeOverlay (serializeOverlay O)).points.map
        (fun p => (p.timestamp, p.dataIndex, p.value)) =
      O.points.map (fun p => (p.timestamp, p.dataIndex, p.value)) := by
  have hpts : (deserializeOverlay (serializeOverlay O)).points = O.points :=
    List.map_id O.points
  exact ⟨rfl, rfl, rfl, rfl, rfl, rfl, rfl, rfl, by rw [hpts]⟩

/-! ### Claim C2 -/

/-- Modelled from the spec: the point projection §4.1 describes —
keep only the `timestamp`, `dataIndex` and `value` coordinates of a
point and drop every other (transient) field. -/
def stripTransientPoint (p : OverlayPoint) : OverlayPoint :=
  { timestamp := p.timestamp
    dataIndex := p.dataIndex
    value := p.value
    extra := [] }

/-- A point carrying a transient engine-internal field. -/
def transientPoint : OverlayPoint :=
  { timestamp := none
    dataIndex := none
    value := some 100
    extra := [("_internal", 7)] }

/-- An overlay whose single point carries a transient field. -/
def transientOverlay : Overlay :=
  { id := "o1"
    groupId := "drawing_tools"
    name := "horizontalStraightLine"
    points := [transientPoint]
    lock := false
    visible := true
    mode := "normal"
    extendData := none
    styles := none
    zLevel := 3 }

/-- C2 fails on the code: `serializeOverlay` copies a point with the
spread `{ ...p }`, so the transient field `_internal` of
`transientOverlay`'s point survives serialization instead of being
dropped as the claim asserts. -/
theorem c2_counterexample :
    ¬ (serializeOverlay transientOverlay).points =
      transientOverlay.points.map stripTransientPoint := by
  decide

/-- C2 amended: `serializeOverlay` maps each point to a fresh copy
preserving all of the point's fields — `timestamp`, `dataIndex`,
`value` when present, and any transient fields alike — rather than
only the three coordinate fields. -/
theorem c2_amended_serialize_preserves_all_point_fields (O : Overlay) :
    (serializeOverlay O).points = O.points :=
  List.map_id O.points

/-! ### Claim C5 -/

/-- C5: `saveOverlaysToLocalStorage`, `loadOverlaysFromLocalStorage`
and `clearOverlaysFromLocalStorage` never throw: a throwing store
primitive leaves the store unchanged and appends a log line, and load
returns the empty sequence when the key is absent, the stored text
fails to decode, or the store read throws.  (The failing situations
are built directly into the quantified world, so the statement is
hypothesis-free.) -/
theorem c5_storage_ops_never_throw (symbol t : String)
    (overlays : List SerializedOverlay) (w : World) :
    (saveOverlaysToLocalStorage symbol overlays { w with setFails := true }).store = w.store ∧
    (saveOverlaysToLocalStorage symbol overlays { w with setFails := true }).log = w.log ++ [saveErrMsg] ∧
    (clearOverlaysFromLocalStorage symbol { w with removeFails := true }).store = w.store ∧
    (clearOverlaysFromLocalStorage symbol { w with removeFails := true }).log = w.log ++ [clearErrMsg] ∧
    (loadOverlaysFromLocalStorage symbol { w with getFails := true }).1 = Json.arr [] ∧
    (loadOverlaysFromLocalStorage symbol { w with getFails := true }).2.log = w.log ++ [loadErrMsg] ∧
    (loadOverlaysFromLocalStorage symbol { w with getFails := false, store := eraseA w.store (getStorageKey symbol) }).1 = Json.arr [] ∧
    (loadOverlaysFromLocalStorage symbol { w with getFails := false, store := setA w.store (getStorageKey symbol) (StoredText.corrupt t) }).1 = Json.arr [] := by
  refine ⟨?_, ?_, ?_, ?_, ?_, ?_, ?_, ?_⟩
  · rw [save_fail _ _ _ rfl]
    rfl
  · rw [save_fail _ _ _ rfl]
    rfl
  · rw [clear_fail _ _ rfl]
    rfl
  · rw [clear_fail _ _ rfl]
    rfl
  · rw [load_getfail _ _ rfl]
  · rw [load_getfail _ _ rfl]
    rfl
  · rw [load_absent _ _ rfl (lookupA_eraseA_self _ _)]
  · rw [load_corrupt _ _ t rfl (lookupA_setA_self _ _ _)]

/-! ### Claim C7 -/

/-- C7: the storage key used by save, load and clear is exactly the
constant prefix `klinecharts-pro-overlays` followed by `-` and the
symbol: save writes exactly under that key, clear removes exactly that
key, and load reads that key back. -/
theorem c7_storage_key_format (symbol : String)
    (overlays : List SerializedOverlay) (w : World) :
    getStorageKey symbol = "klinecharts-pro-overlays-" ++ symbol ∧
    STORAGE_PREFIX = "klinecharts-pro-overlays" ∧
    (saveOverlaysToLocalStorage symbol overlays { w with setFails := false }).store = setA w.store (getStorageKey symbol) (StoredText.wellFormed (overlaysToJson overlays)) ∧
    (clearOverlaysFromLocalStorage symbol { w with removeFails := false }).store = eraseA w.store (getStorageKey symbol) ∧
    (loadOverlaysFromLocalStorage symbol { w with getFails := false, store := setA w.store (getStorageKey symbol) (StoredText.wellFormed (overlaysToJson overlays)) }).1 = overlaysToJson overlays := by
  refine ⟨getStorageKey_eq symbol, rfl, ?_, ?_, ?_⟩
  · rw [save_ok _ _ _ rfl]
  · rw [clear_ok _ _ rfl]
  · rw [load_found _ _ _ rfl (lookupA_setA_self _ _ _)]

/-! ### Claim C10 -/

/-- C10: when the stored text under the symbol's key parses as valid
JSON, `loadOverlaysFromLocalStorage` returns the parsed value as-is,
with no shape validation — `j` ranges over every JSON value, including
numbers, strings and plain objects. -/
theorem c10_load_returns_parsed_value_unvalidated (symbol : String)
    (j : Json) (w : World) :
    (loadOverlaysFromLocalStorage symbol { w with getFails := false, store := setA w.store (getStorageKey symbol) (StoredText.wellFormed j) }).1 = j := by
  rw [load_found _ _ _ rfl (lookupA_setA_self _ _ _)]

/-! ### Claim C8 -/

/-- C8: with a bound cloud provider, `syncFromCloud` returns the
records downloaded for the current symbol and saves them locally under
that symbol's storage key; with no provider bound it returns the empty
sequence and leaves the world untouched. -/
theorem c8_syncFromCloud_downloads_saves_returns (sym : String)
    (p : CloudSyncProvider) (w : World) :
    (OverlayStorage.syncFromCloud { symbol := sym, cloudSyncProvider := some p } w).1 = p.download sym ∧
    (OverlayStorage.syncFromCloud { symbol := sym, cloudSyncProvider := some p } { w with setFails := false }).2.store = setA w.store (getStorageKey sym) (StoredText.wellFormed (overlaysToJson (p.download sym))) ∧
    OverlayStorage.syncFromCloud { symbol := sym, cloudSyncProvider := none } w = ([], w) := by
  have h := save_ok sym (p.download sym) { w with setFails := false } rfl
  refine ⟨rfl, ?_, rfl⟩
  show (saveOverlaysToLocalStorage sym (p.download sym) { w with setFails := false }).store = _
  rw [h]

/-! ### Claim C6 -/

/-- C6: records persisted under two distinct symbols are strictly
partitioned: after `save(s1, X)` and `save(s2, Y)` in either order,
loading `s1` yields (the stored JSON image of) `X` and loading `s2`
yields `Y`, for disjoint non-empty `X`, `Y`. -/
theorem c6_symbol_isolation (s1 s2 : String)
    (X Y : List SerializedOverlay) (w : World)
    (hne : s1 ≠ s2) (hX : X ≠ []) (hY : Y ≠ [])
    (hdisj : ∀ r ∈ X, r ∉ Y)
    (hset : w.setFails = false) (hget : w.getFails = false) :
    ((loadOverlaysFromLocalStorage s1 (saveOverlaysToLocalStorage s2 Y (saveOverlaysToLocalStorage s1 X w))).1 = overlaysToJson X ∧
      (loadOverlaysFromLocalStorage s2 (saveOverlaysToLocalStorage s2 Y (saveOverlaysToLocalStorage s1 X w))).1 = overlaysToJson Y) ∧
    ((loadOverlaysFromLocalStorage s1 (saveOverlaysToLocalStorage s1 X (saveOverlaysToLocalStorage s2 Y w))).1 = overlaysToJson X ∧
      (loadOverlaysFromLocalStorage s2 (saveOverlaysToLocalStorage s1 X (saveOverlaysToLocalStorage s2 Y w))).1 = overlaysToJson Y) := by
  have hk12 : getStorageKey s1 ≠ getStorageKey s2 :=
    fun h => hne (getStorageKey_inj h)
  have hk21 : getStorageKey s2 ≠ getStorageKey s1 :=
    fun h => hne (getStorageKey_inj h.symm)
  have h1 : saveOverlaysToLocalStorage s1 X w =
      { w with store := setA w.store (getStorageKey s1) (StoredText.wellFormed (overlaysToJson X)) } :=
    save_ok _ _ _ hset
  have h2 : saveOverlaysToLocalStorage s2 Y (saveOverlaysToLocalStorage s1 X w) =
      { w with store := setA (setA w.store (getStorageKey s1) (StoredText.wellFormed (overlaysToJson X))) (getStorageKey s2) (StoredText.wellFormed (overlaysToJson Y)) } := by
    rw [h1]
    exact save_ok _ _ _ hset
  have h3 : saveOverlaysToLocalStorage s2 Y w =
      { w with store := setA w.store (getStorageKey s2) (StoredText.wellFormed (overlaysToJson Y)) } :=
    save_ok _ _ _ hset
  have h4 : saveOverlaysToLocalStorage s1 X (saveOverlaysToLocalStorage s2 Y w) =
      { w with store := setA (setA w.store (getStorageKey s2) (StoredText.wellFormed (overlaysToJson Y))) (getStorageKey s1) (StoredText.wellFormed (overlaysToJson X)) } := by
    rw [h3]
    exact save_ok _ _ _ hset
  refine ⟨⟨?_, ?_⟩, ?_, ?_⟩
  · rw [h2, load_found s1 { w with store := setA (setA w.store (getStorageKey s1) (StoredText.wellFormed (overlaysToJson X))) (getStorageKey s2) (StoredText.wellFormed (overlaysToJson Y)) } (overlaysToJson X) hget (by
      rw [show lookupA (setA (setA w.store (getStorageKey s1) (StoredText.wellFormed (overlaysToJson X))) (getStorageKey s2) (StoredText.wellFormed (overlaysToJson Y))) (getStorageKey s1) = lookupA (setA w.store (getStorageKey s1) (StoredText.wellFormed (overlaysToJson X))) (getStorageKey s1) from lookupA_setA_ne _ _ _ _ hk12]
      exact lookupA_setA_self _ _ _)]
  · rw [h2, load_found s2 { w with store := setA (setA w.store (getStorageKey s1) (StoredText.wellFormed (overlaysToJson X))) (getStorageKey s2) (StoredText.wellFormed (overlaysToJson Y)) } (overlaysToJson Y) hget (lookupA_setA_self _ _ _)]
  · rw [h4, load_found s1 { w with store := setA (setA w.store (getStorageKey s2) (StoredText.wellFormed (overlaysToJson Y))) (getStorageKey s1) (StoredText.wellFormed (overlaysToJson X)) } (overlaysToJson X) hget (lookupA_setA_self _ _ _)]
  · rw [h4, load_found s2 { w with store := setA (setA w.store (getStorageKey s2) (StoredText.wellFormed (overlaysToJson Y))) (getStorageKey s1) (StoredText.wellFormed (overlaysToJson X)) } (overlaysToJson Y) hget (by
      rw [show lookupA (setA (setA w.store (getStorageKey s2) (StoredText.wellFormed (overlaysToJson Y))) (getStorageKey s1) (StoredText.wellFormed (overlaysToJson X))) (getStorageKey s2) = lookupA (setA w.store (getStorageKey s2) (StoredText.wellFormed (overlaysToJson Y))) (getStorageKey s2) from lookupA_setA_ne _ _ _ _ hk21]
      exact lookupA_setA_self _ _ _)]

/-- A world with an empty store, a functioning storage backend and an
empty log. -/
def emptyWorld : World :=
  { store := []
    setFails := false
    getFails := false
    removeFails := false
    log := [] }

def recA : SerializedOverlay :=
  { id := "o1"
    groupId := "drawing_tools"
    name := "horizontalStraightLine"
    points := [{ timestamp := none, dataIndex := none, value := some 100, extra := [] }]
    lock := false
    visible := true
    mode := "normal"
    extendData := none
    styles := none }

def recB : SerializedOverlay :=
  { id := "o2"
    groupId := "drawing_tools"
    name := "fibonacciLine"
    points := [{ timestamp := some 1000, dataIndex := some 5, value := some 200, extra := [] }]
    lock := true
    visible := true
    mode := "weak_magnet"
    extendData := none
    styles := none }

/-- Witness for C6 at `"AAPL"` / `"BTCUSD"` with the disjoint non-empty
record lists `[recA]` and `[recB]`. -/
theorem c6_symbol_isolation_witness :
    ("AAPL" : String) ≠ "BTCUSD" ∧ [recA] ≠ [] ∧ [recB] ≠ [] ∧
    (∀ r ∈ [recA], r ∉ [recB]) ∧
    emptyWorld.setFails = false ∧ emptyWorld.getFails = false ∧
    (((loadOverlaysFromLocalStorage "AAPL" (saveOverlaysToLocalStorage "BTCUSD" [recB] (saveOverlaysToLocalStorage "AAPL" [recA] emptyWorld))).1 = overlaysToJson [recA] ∧
      (loadOverlaysFromLocalStorage "BTCUSD" (saveOverlaysToLocalStorage "BTCUSD" [recB] (saveOverlaysToLocalStorage "AAPL" [recA] emptyWorld))).1 = overlaysToJson [recB]) ∧
    ((loadOverlaysFromLocalStorage "AAPL" (saveOverlaysToLocalStorage "AAPL" [recA] (saveOverlaysToLocalStorage "BTCUSD" [recB] emptyWorld))).1 = overlaysToJson [recA] ∧
      (loadOverlaysFromLocalStorage "BTCUSD" (saveOverlaysToLocalStorage "AAPL" [recA] (saveOverlaysToLocalStorage "BTCUSD" [recB] emptyWorld))).1 = overlaysToJson [recB])) :=
  ⟨by decide, by decide, by decide, by decide, rfl, rfl,
    c6_symbol_isolation "AAPL" "BTCUSD" [recA] [recB] emptyWorld
      (by decide) (by decide) (by decide) (by decide) rfl rfl⟩

/-! ### Claim C4 -/

/-- An overlay tracked by the coordinator. -/
def ovA : Overlay :=
  { id := "o1"
    groupId := "drawing_tools"
    name := "horizontalStraightLine"
    points := [{ timestamp := none, dataIndex := none, value := some 100, extra := [] }]
    lock := false
    visible := true
    mode := "normal"
    extendData := none
    styles := none
    zLevel := 0 }

/-- A second tracked overlay. -/
def ovB : Overlay :=
  { id := "o2"
    groupId := "drawing_tools"
    name := "fibonacciLine"
    points := [{ timestamp := some 1000, dataIndex := some 5, value := some 200, extra := [] }]
    lock := true
    visible := true
    mode := "weak_magnet"
    extendData := none
    styles := none
    zLevel := 0 }

/-- A coordinator state in which overlay `"o1"` is still tracked but no
longer present in the engine (the engine dropped it without the
coordinator being told). -/
def staleState : CoordState :=
  { engine := []
    overlayMap := [("o1", ovA)]
    storageSymbol := "AAPL"
    enabled := true
    world := emptyWorld }

/-- C4 fails on the code: in `staleState` the overlay `"o1"` is absent
from the engine (`getOverlayById` returns `null`), yet after
`saveOverlays` the id is still in the tracked map and the record set
persisted under `"AAPL"` contains its record — the stale id is neither
dropped nor excluded, contradicting the claimed invariant. -/
theorem c4_counterexample :
    getOverlayById staleState "o1" = none ∧
    lookupA (saveOverlays staleState).overlayMap "o1" = some ovA ∧
    lookupA (saveOverlays staleState).world.store (getStorageKey "AAPL") =
      some (StoredText.wellFormed (overlaysToJson [serializeOverlay ovA])) :=
  ⟨rfl, rfl, rfl⟩

/-- C4 amended: at every persist, `saveOverlays` keeps the tracked id
set unchanged — entries still present in the engine are refreshed, but
an id whose overlay is gone from the engine keeps its last-known
snapshot in the tracked map — and the persisted record set carries
exactly the ids of the tracked map, stale ids included. -/
theorem c4_amended_stale_ids_persisted (s : CoordState)
    (he : s.enabled = true) (hw : s.world.setFails = false)
    (hM : mapWf s) (hE : engineWf s) :
    (saveOverlays s).overlayMap.map Prod.fst = s.overlayMap.map Prod.fst ∧
    ∃ recs,
      lookupA (saveOverlays s).world.store (getStorageKey s.storageSymbol) =
        some (StoredText.wellFormed (overlaysToJson recs)) ∧
      recs.map (fun r => r.id) = s.overlayMap.map Prod.fst := by
  rw [saveOverlays_eq s he hw]
  constructor
  · exact keys_refresh _ _
  · refine ⟨(s.overlayMap.map (refreshEntry s.engine)).map (fun p => serializeOverlay p.2),
      lookupA_setA_self _ _ _, ?_⟩
    rw [List.map_map, List.map_map]
    apply List.map_congr_left
    intro p hp
    have hq : (refreshEntry s.engine p).2.id = (refreshEntry s.engine p).1 :=
      refresh_wf s.engine s.overlayMap hE hM _ (List.mem_map.2 ⟨p, hp, rfl⟩)
    have hf : (refreshEntry s.engine p).1 = p.1 := refreshEntry_fst _ _
    show (serializeOverlay (refreshEntry s.engine p).2).id = p.1
    calc (serializeOverlay (refreshEntry s.engine p).2).id
        = (refreshEntry s.engine p).2.id := rfl
      _ = p.1 := hq.trans hf

/-- Witness for the amended C4 at `staleState`. -/
theorem c4_amended_witness :
    staleState.enabled = true ∧ staleState.world.setFails = false ∧
    mapWf staleState ∧ engineWf staleState ∧
    ((saveOverlays staleState).overlayMap.map Prod.fst =
        staleState.overlayMap.map Prod.fst ∧
      ∃ recs,
        lookupA (saveOverlays staleState).world.store (getStorageKey staleState.storageSymbol) =
          some (StoredText.wellFormed (overlaysToJson recs)) ∧
        recs.map (fun r => r.id) = staleState.overlayMap.map Prod.fst) :=
  ⟨rfl, rfl, by decide, by decide,
    c4_amended_stale_ids_persisted staleState rfl rfl (by decide) (by decide)⟩

/-! ### Claim C9 -/

/-- C9: after a user removal event — once `untrackOverlay` has run for
each removed overlay id — the record set persisted under the current
symbol contains no record with a removed id.  The persist happens
inside `untrackOverlay` itself (`saveOverlays` is called synchronously,
"Save immediately when removing"), so this holds before any auto-save
tick. -/
theorem c9_immediate_flush_on_removal (ids : List String)
    (s : CoordState) (he : s.enabled = true)
    (hw : s.world.setFails = false) (hM : mapWf s) (hE : engineWf s)
    (hids : ids ≠ []) :
    ∃ recs,
      lookupA (untrackOverlays ids s).world.store (getStorageKey s.storageSymbol) =
        some (StoredText.wellFormed (overlaysToJson recs)) ∧
      ∀ r ∈ recs, r.id ∉ ids := by
  obtain ⟨-, -, -, -, e5, e6, e7⟩ := untrackOverlays_spec ids s he hw hM hE
  refine ⟨(untrackOverlays ids s).overlayMap.map (fun p => serializeOverlay p.2),
    e7 hids, ?_⟩
  intro r hr
  rcases List.mem_map.1 hr with ⟨p, hp, rfl⟩
  show (serializeOverlay p.2).id ∉ ids
  have hid : (serializeOverlay p.2).id = p.1 := e5 p hp
  rw [hid]
  exact (e6 p hp).1

/-- A coordinator state with two tracked overlays, both present in the
engine, about to have `"o1"` removed. -/
def removalState : CoordState :=
  { engine := [("o1", ovA), ("o2", ovB)]
    overlayMap := [("o1", ovA), ("o2", ovB)]
    storageSymbol := "AAPL"
    enabled := true
    world := emptyWorld }

/-- Witness for C9: removing `"o1"` from `removalState`. -/
theorem c9_immediate_flush_witness :
    removalState.enabled = true ∧ removalState.world.setFails = false ∧
    mapWf removalState ∧ engineWf removalState ∧
    (["o1"] : List String) ≠ [] ∧
    ∃ recs,
      lookupA (untrackOverlays ["o1"] removalState).world.store (getStorageKey removalState.storageSymbol) =
        some (StoredText.wellFormed (overlaysToJson recs)) ∧
      ∀ r ∈ recs, r.id ∉ (["o1"] : List String) :=
  ⟨rfl, rfl, by decide, by decide, by decide,
    c9_immediate_flush_on_removal ["o1"] removalState rfl rfl
      (by decide) (by decide) (by decide)⟩

/-! ### Claim C3 -/

theorem saveOverlays_enabled (s : CoordState) :
    (saveOverlays s).enabled = s.enabled := by
  unfold saveOverlays
  split <;> rfl

theorem clearOverlays_enabled (s : CoordState) :
    (clearOverlays s).enabled = s.enabled := by
  unfold clearOverlays
  split
  · rw [saveOverlays_enabled]
  · rfl

theorem clearOverlays_eq (s : CoordState) (he : s.enabled = true)
    (hw : s.world.setFails = false) :
    clearOverlays s =
      { s with
        overlayMap := []
        world := { s.world with store := setA s.world.store (getStorageKey s.storageSymbol) (StoredText.wellFormed (overlaysToJson [])) } } := by
  have h1 : clearOverlays s = saveOverlays { s with overlayMap := [] } := by
    simp [clearOverlays, he]
  rw [h1, saveOverlays_eq { s with overlayMap := [] } he hw]
  rfl

theorem loadOverlays_absent (s : CoordState) (he : s.enabled = true)
    (hget : s.world.getFails = false)
    (habs : lookupA s.world.store (getStorageKey s.storageSymbol) = none) :
    loadOverlays s = s := by
  obtain ⟨eng, m, sym, en, w⟩ := s
  have he' : en = true := he
  subst he'
  simp only [loadOverlays]
  rw [if_pos trivial]
  rw [load_absent sym w hget habs]
  rfl

theorem onSymbolChange_eq (p n : String) (s : CoordState)
    (he : s.enabled = true) (hpn : p ≠ n) :
    onSymbolChangeOverlays p n s =
      loadOverlays { clearOverlays { s with engine := [] } with storageSymbol := n } := by
  have hc : (s.enabled ∧ p ≠ n) := ⟨he, hpn⟩
  simp only [onSymbolChangeOverlays]
  rw [if_pos hc]
  have he1 : (clearOverlays { s with engine := [] }).enabled = true := by
    rw [clearOverlays_enabled]
    exact he
  rw [if_pos he1]
  have he2 : (({ clearOverlays { s with engine := [] } with storageSymbol := n } : CoordState).enabled ∧ p ≠ n) := ⟨he1, hpn⟩
  rw [if_pos he2]

/-- The `localStorage` contents holding the two `"AAPL"` records. -/
def aaplStore : List (String × StoredText) :=
  [(getStorageKey "AAPL",
    StoredText.wellFormed (overlaysToJson [serializeOverlay ovA, serializeOverlay ovB]))]

/-- A coordinator session on `"AAPL"` with two tracked overlays that are
also persisted under the `"AAPL"` storage key, and nothing saved for
`"GOOGL"`. -/
def aaplState : CoordState :=
  { engine := [("o1", ovA), ("o2", ovB)]
    overlayMap := [("o1", ovA), ("o2", ovB)]
    storageSymbol := "AAPL"
    enabled := true
    world := { store := aaplStore
               setFails := false
               getFails := false
               removeFails := false
               log := [] } }

/-- C3 fails on the code: switching `aaplState` from `"AAPL"` to
`"GOOGL"` does leave the engine with 0 overlays, but the `"AAPL"`
storage key no longer holds its 2 records — `clearOverlays` runs (and
persists the emptied tracked set) before `overlayStorage.setSymbol`, so
the key is overwritten with the empty record list. -/
theorem c3_counterexample :
    (onSymbolChangeOverlays "AAPL" "GOOGL" aaplState).engine = [] ∧
    lookupA (onSymbolChangeOverlays "AAPL" "GOOGL" aaplState).world.store (getStorageKey "AAPL") =
      some (StoredText.wellFormed (overlaysToJson [])) ∧
    overlaysToJson [] ≠ overlaysToJson [serializeOverlay ovA, serializeOverlay ovB] :=
  ⟨rfl, rfl, by simp [overlaysToJson]⟩

/-- C3 amended: switching the active symbol from `"AAPL"` (2 tracked
overlays, persisted under the `"AAPL"` key) to `"GOOGL"` (nothing
saved) leaves the engine holding 0 overlays for `"GOOGL"`, empties the
tracked map, rebinds the storage to `"GOOGL"` — and overwrites the
`"AAPL"` storage key with the empty record list, because the flush of
the cleared tracked set happens before the storage symbol is rebound. -/
theorem c3_amended_symbol_switch (eng m : List (String × Overlay))
    (st : List (String × StoredText)) (lg : List String)
    (hlen : m.length = 2)
    (hstored : lookupA st (getStorageKey "AAPL") =
      some (StoredText.wellFormed (overlaysToJson (m.map (fun p => serializeOverlay p.2)))))
    (hnew : lookupA st (getStorageKey "GOOGL") = none) :
    onSymbolChangeOverlays "AAPL" "GOOGL"
      { engine := eng
        overlayMap := m
        storageSymbol := "AAPL"
        enabled := true
        world := { store := st, setFails := false, getFails := false, removeFails := false, log := lg } } =
      { engine := []
        overlayMap := []
        storageSymbol := "GOOGL"
        enabled := true
        world := { store := setA st (getStorageKey "AAPL") (StoredText.wellFormed (overlaysToJson [])), setFails := false, getFails := false, removeFails := false, log := lg } } := by
  have hA : ("AAPL" : String) ≠ "GOOGL" := by decide
  rw [onSymbolChange_eq "AAPL" "GOOGL" _ rfl hA]
  have habs : lookupA (setA st (getStorageKey "AAPL") (StoredText.wellFormed (overlaysToJson []))) (getStorageKey "GOOGL") = none := by
    rw [lookupA_setA_ne _ _ _ _
      (fun h => (by decide : ¬(("GOOGL" : String) = "AAPL")) (getStorageKey_inj h))]
    exact hnew
  have hcl := clearOverlays_eq
    { engine := ([] : List (String × Overlay))
      overlayMap := m
      storageSymbol := "AAPL"
      enabled := true
      world := { store := st, setFails := false, getFails := false, removeFails := false, log := lg } } rfl rfl
  dsimp only at hcl ⊢
  rw [hcl]
  exact loadOverlays_absent _ rfl rfl habs

/-- Witness for the amended C3 at the `"AAPL"` session holding `ovA`
and `ovB`. -/
theorem c3_amended_witness :
    ([("o1", ovA), ("o2", ovB)] : List (String × Overlay)).length = 2 ∧
    lookupA aaplStore (getStorageKey "AAPL") =
      some (StoredText.wellFormed (overlaysToJson (([("o1", ovA), ("o2", ovB)] : List (String × Overlay)).map (fun p => serializeOverlay p.2)))) ∧
    lookupA aaplStore (getStorageKey "GOOGL") = none ∧
    onSymbolChangeOverlays "AAPL" "GOOGL"
      { engine := [("o1", ovA), ("o2", ovB)]
        overlayMap := [("o1", ovA), ("o2", ovB)]
        storageSymbol := "AAPL"
        enabled := true
        world := { store := aaplStore, setFails := false, getFails := false, removeFails := false, log := [] } } =
      { engine := []
        overlayMap := []
        storageSymbol := "GOOGL"
        enabled := true
        world := { store := setA aaplStore (getStorageKey "AAPL") (StoredText.wellFormed (overlaysToJson [])), setFails := false, getFails := false, removeFails := false, log := [] } } :=
  ⟨rfl, rfl, rfl,
    c3_amended_symbol_switch [("o1", ovA), ("o2", ovB)] [("o1", ovA), ("o2", ovB)] aaplStore [] rfl rfl rfl⟩
